import Mathlib

/-!
Shallow embedding of the authorization core of the Payroll-by-Vanguard-Financial
backend (Express + PostgreSQL), together with proofs checking the
natural-language specification against it.

Conventions of the embedding:
- Machine integers of JS are modelled as `Nat` (ids) and `Int` (timestamps,
  monetary values in cents); no overflow is relevant at these magnitudes.
- SQL rows are Lean structures, tables are lists, the database is a `Db`
  record of tables.  A SQL `UPDATE ... WHERE p` maps the table pointwise,
  rewriting exactly the rows satisfying `p`; `RETURNING *` is the filtered
  list.  SQL `=` against a possibly-NULL operand is `sqlEq` (NULL compares
  false against everything, including NULL), while JS `!==` on nullable ids
  is plain `Option` disequality (null === null holds in JS).
- `express-validator` chains and other external validator collaborators are
  passed in as boolean-valued function parameters; the one validation the
  source states inline (the offboarding reason enum) is embedded concretely.
- HTTP responses are `Resp α`: `ok` with the JSON payload, or `err` with the
  numeric status code the source sends (400/401/403/404/500).
- Fallible storage inside the offboarding transaction is modelled by an
  error oracle `fails : Nat → Bool` naming which query of the transaction
  throws; BEGIN/COMMIT/ROLLBACK semantics stage all writes and publish them
  only at COMMIT.
-/

namespace Payroll

/-- Roles carried by a verified token, per the Principal data model
(role is Accountant or Client). -/
inductive Role where
  | accountant
  | client
deriving DecidableEq, Repr

/-- Principal attached to a request by the authenticator:
`{userId, userType, accountantId?, companyId?}` as emitted by
`generateToken`. -/
structure Principal where
  userId : Nat
  role : Role
  accountantId : Option Nat
  companyId : Option Nat
deriving DecidableEq, Repr

/-- Well-formedness of a principal, from the spec data model: exactly one of
`accountantId` / `companyId` is set, determined by the role, and ids are
positive (SERIAL keys start at 1, and JS truthiness treats 0 as absent). -/
def Principal.WF (u : Principal) : Prop :=
  (u.role = Role.accountant → (∃ a, u.accountantId = some a ∧ a ≠ 0) ∧ u.companyId = none) ∧
  (u.role = Role.client → (∃ k, u.companyId = some k ∧ k ≠ 0) ∧ u.accountantId = none)

instance (u : Principal) : Decidable u.WF := by
  unfold Principal.WF; infer_instance

/-- Row of the `companies` table (part_006 schema): `accountant_id` is
nullable. -/
structure Company where
  company_id : Nat
  accountant_id : Option Nat
  company_name : String
  contact_person : String
  email : String
  phone : String
  address : String
  updated_at : Int
deriving DecidableEq, Repr

/-- Row of the `employees` table (part_006 schema): `company_id` is nullable,
banking fields are nullable, `is_active` defaults to true. -/
structure Employee where
  employee_id : Nat
  company_id : Option Nat
  first_name : String
  last_name : String
  date_of_birth : String
  full_address : String
  email : String
  phone_number : String
  sin : String
  start_date : String
  position : String
  pay_type : String
  pay_rate : Int
  pay_schedule : String
  institution_number : Option String
  transit_number : Option String
  account_number : Option String
  consent_electronic_documents : Bool
  is_active : Bool
  updated_at : Int
deriving DecidableEq, Repr

/-- Row of the `employee_offboarding` table. -/
structure OffboardingRecord where
  employee_id : Nat
  reason_for_leaving : String
  last_day_worked : String
  payout_accrued_vacation : Bool
  callback_date : Option String
deriving DecidableEq, Repr

/-- Row of the `payroll_entries` table; `created_at` drives the 30-day
staleness rule. -/
structure PayrollEntry where
  payroll_id : Nat
  employee_id : Nat
  pay_period_start : String
  pay_period_end : String
  hours_worked : Int
  overtime_hours : Int
  gross_pay : Int
  deductions : Int
  net_pay : Int
  payment_date : String
  created_at : Int
  updated_at : Int
deriving DecidableEq, Repr

/-- The relational store: the four tables the core touches. -/
structure Db where
  companies : List Company
  employees : List Employee
  offboarding : List OffboardingRecord
  payroll_entries : List PayrollEntry
deriving DecidableEq, Repr

/-- SQL equality against nullable operands: `NULL = x` is never true, not
even for `x = NULL`. -/
def sqlEq (a b : Option Nat) : Bool :=
  match a, b with
  | some x, some y => x == y
  | _, _ => false

/-- JS `callback_date || null`: the empty string is falsy and becomes NULL. -/
def jsOrNull (s : Option String) : Option String :=
  match s with
  | some d => if d = "" then none else some d
  | none => none

/-- JS truthiness of a parsed numeric id: `NaN` (here `none`) and `0` are
falsy. -/
def jsTruthy (n : Option Nat) : Bool :=
  match n with
  | some k => k ≠ 0
  | none => false

/-- First row of `SELECT * FROM employees WHERE employee_id = $1`. -/
def Db.findEmployee (db : Db) (id : Nat) : Option Employee :=
  db.employees.find? (fun e => e.employee_id == id)

/-- First row of `SELECT * FROM companies WHERE company_id = $1`. -/
def Db.findCompany (db : Db) (id : Nat) : Option Company :=
  db.companies.find? (fun c => c.company_id == id)

/-- HTTP response: JSON payload on success, or the numeric status code the
source sends on the error path. -/
inductive Resp (α : Type) where
  | ok : α → Resp α
  | err : Nat → Resp α
deriving DecidableEq, Repr

/-- Outcome of `jwt.verify` for a presented token string: decoded principal
or a verification error (bad signature, malformed, expired). -/
inductive TokenVerify where
  | valid : Principal → TokenVerify
  | invalid
deriving DecidableEq, Repr

/-- Outcome of the `authenticateToken` middleware. -/
inductive AuthnResult where
  | missing401
  | invalid403
  | authenticated : Principal → AuthnResult
deriving DecidableEq, Repr

/-- The space character, the separator of `split(" ")`. -/
def spaceChar : Char := Char.ofNat 32

/-- Grouping of a character list by a separator, with the JS `split`
semantics: adjacent separators produce empty groups and the result is never
empty. -/
def splitChars (sep : Char) : List Char → List (List Char)
  | [] => [[]]
  | c :: cs =>
    let r := splitChars sep cs
    if c = sep then [] :: r
    else
      match r with
      | [] => [[c]]
      | g :: gs => (c :: g) :: gs

/-- Token extraction of `authenticateToken`:
`authHeader && authHeader.split(" ")[1]`, then `token == null` guards 401.
An empty header string is falsy in JS, so the `&&` yields the empty string
itself, which is not `== null` and flows into `jwt.verify`. -/
def tokenOf (authHeader : Option String) : Option String :=
  match authHeader with
  | none => none
  | some h =>
    if h = "" then some ""
    else ((splitChars spaceChar h.toList).map (fun cs => String.mk cs)).get? 1

/-- Middleware `authenticateToken` (middleware/auth.js lines 5-20): missing
token gives 401; a token that fails verification gives 403. -/
def authenticateToken (verify : String → TokenVerify) (authHeader : Option String) :
    AuthnResult :=
  match tokenOf authHeader with
  | none => AuthnResult.missing401
  | some t =>
    match verify t with
    | TokenVerify.invalid => AuthnResult.invalid403
    | TokenVerify.valid u => AuthnResult.authenticated u

/-- Decision of a pass-or-reject middleware. -/
inductive MwDecision where
  | proceed
  | deny403
deriving DecidableEq, Repr

/-- Middleware `authorizeAccountant` (part_001 lines 23-30): requires
`userType === "accountant" && accountantId` (truthy). -/
def authorizeAccountant (u : Principal) : MwDecision :=
  if u.role = Role.accountant ∧ jsTruthy u.accountantId then MwDecision.proceed
  else MwDecision.deny403

/-- Middleware `authorizeClientOrAccountant` (part_001 lines 34-98).
`isEmployeeScoped` is `req.path.includes("/offboard") ||
req.path.includes("/employees/")` computed on the router-relative path;
`companyIdParam` is `parseInt(req.params.companyId || req.body.company_id)`
(as an `Option`, `none` for `NaN`); `employeeIdParam` is
`parseInt(req.params.id)`.  On the employee-scoped branches a missing
employee row deliberately lets the request proceed so the route handler can
report 404. -/
def authorizeClientOrAccountant (u : Principal) (isEmployeeScoped : Bool)
    (companyIdParam : Option Nat) (employeeIdParam : Option Nat) (db : Db) :
    MwDecision :=
  match u.role with
  | Role.accountant =>
    if isEmployeeScoped then
      -- the ownership lookup result is logged but never used to deny
      MwDecision.proceed
    else if jsTruthy companyIdParam then
      match companyIdParam with
      | some cid =>
        match db.findCompany cid with
        | none => MwDecision.deny403
        | some c =>
          if c.accountant_id ≠ u.accountantId then MwDecision.deny403
          else MwDecision.proceed
      | none => MwDecision.proceed
    else MwDecision.proceed
  | Role.client =>
    if isEmployeeScoped then
      match employeeIdParam with
      | none => MwDecision.proceed
      | some eid =>
        match db.findEmployee eid with
        | none => MwDecision.proceed
        | some e =>
          if e.company_id ≠ u.companyId then MwDecision.deny403
          else MwDecision.proceed
    else if jsTruthy companyIdParam then
      match companyIdParam with
      | some cid =>
        if some cid ≠ u.companyId then MwDecision.deny403 else MwDecision.proceed
      | none => MwDecision.proceed
    else MwDecision.proceed

/-- Route handler GET /companies/:id (part_004 lines 49-74).  For an
accountant the SQL restricts to the companies of the accountant; for a client the
SQL is `SELECT * FROM companies WHERE company_id = $1` with no ownership
restriction.  Empty result gives 404. -/
def getCompany (u : Principal) (id : Nat) (db : Db) : Resp Company :=
  let found :=
    match u.role with
    | Role.accountant =>
      db.companies.find? (fun c => c.company_id == id && sqlEq c.accountant_id u.accountantId)
    | Role.client =>
      db.companies.find? (fun c => c.company_id == id)
  match found with
  | none => Resp.err 404
  | some c => Resp.ok c

/-- Route GET /companies/:id as wired: `authenticateToken` has already
attached the principal, then `authorizeClientOrAccountant` runs with the
router-relative path `/<id>` (so neither employee-scoped marker matches) and
with `req.params.companyId` absent — the parameter of the route is named `id` —
and an empty GET body, hence `companyIdParam = none`; then the handler. -/
def getCompanyRoute (u : Principal) (id : Nat) (db : Db) : Resp Company :=
  match authorizeClientOrAccountant u false none (some id) db with
  | MwDecision.deny403 => Resp.err 403
  | MwDecision.proceed => getCompany u id db

/-- Request body of POST /companies. -/
structure CompanyCreateBody where
  company_name : String
  contact_person : String
  email : String
  phone : String
  address : String
deriving DecidableEq, Repr

/-- Route POST /companies (part_004 lines 77-103), behind
`authorizeAccountant`: inserts a row owned by the caller
(`accountant_id = req.user.accountantId`). -/
def createCompany (validate : CompanyCreateBody → Bool) (newId : Nat) (now : Int)
    (u : Principal) (b : CompanyCreateBody) (db : Db) : Resp Company × Db :=
  match authorizeAccountant u with
  | MwDecision.deny403 => (Resp.err 403, db)
  | MwDecision.proceed =>
    if ¬ validate b then (Resp.err 400, db)
    else
      let c : Company :=
        { company_id := newId
          accountant_id := u.accountantId
          company_name := b.company_name
          contact_person := b.contact_person
          email := b.email
          phone := b.phone
          address := b.address
          updated_at := now }
      (Resp.ok c, { db with companies := db.companies ++ [c] })

/-- Request body of PUT /companies/:id: all fields optional. -/
structure CompanyUpdateBody where
  company_name : Option String
  contact_person : Option String
  email : Option String
  phone : Option String
  address : Option String
deriving DecidableEq, Repr

/-- SET clause of PUT /companies/:id: each body field included under the
JS truthiness test `if (field)` — present and nonempty — plus
`updated_at = CURRENT_TIMESTAMP`.  `accountant_id` is never in the field
list. -/
def applyCompanyUpdate (b : CompanyUpdateBody) (now : Int) (c : Company) : Company :=
  { c with
    company_name := match b.company_name with
      | some s => if s = "" then c.company_name else s
      | none => c.company_name
    contact_person := match b.contact_person with
      | some s => if s = "" then c.contact_person else s
      | none => c.contact_person
    email := match b.email with
      | some s => if s = "" then c.email else s
      | none => c.email
    phone := match b.phone with
      | some s => if s = "" then c.phone else s
      | none => c.phone
    address := match b.address with
      | some s => if s = "" then c.address else s
      | none => c.address
    updated_at := now }

/-- WHERE clause of PUT /companies/:id: `company_id = :id` and, for a
client, `company_id = user.companyId`, else `accountant_id =
user.accountantId`. -/
def companyUpdateWhere (u : Principal) (id : Nat) (c : Company) : Bool :=
  c.company_id == id &&
    (match u.role with
     | Role.client => sqlEq (some c.company_id) u.companyId
     | Role.accountant => sqlEq c.accountant_id u.accountantId)

/-- Route PUT /companies/:id (part_004 lines 106-178), behind
`authorizeClientOrAccountant` (router-relative path `/<id>`, so
`companyIdParam` comes out of the body, which has no `company_id` field:
`none`).  Zero updated rows give 404. -/
def updateCompany (validate : CompanyUpdateBody → Bool) (now : Int)
    (u : Principal) (id : Nat) (b : CompanyUpdateBody) (db : Db) :
    Resp Company × Db :=
  match authorizeClientOrAccountant u false none (some id) db with
  | MwDecision.deny403 => (Resp.err 403, db)
  | MwDecision.proceed =>
    if ¬ validate b then (Resp.err 400, db)
    else
      let returned := (db.companies.filter (companyUpdateWhere u id)).map
        (applyCompanyUpdate b now)
      let updated := db.companies.map
        (fun c => if companyUpdateWhere u id c then applyCompanyUpdate b now c else c)
      let db' := { db with companies := updated }
      match returned with
      | [] => (Resp.err 404, db')
      | c :: _ => (Resp.ok c, db')

/-- Route DELETE /companies/:id (part_004 lines 181-203), behind
`authorizeAccountant`: hard delete restricted to companies owned by the caller;
zero deleted rows give 404. -/
def deleteCompany (u : Principal) (id : Nat) (db : Db) : Resp Unit × Db :=
  match authorizeAccountant u with
  | MwDecision.deny403 => (Resp.err 403, db)
  | MwDecision.proceed =>
    let gone := db.companies.filter
      (fun c => c.company_id == id && sqlEq c.accountant_id u.accountantId)
    let kept := db.companies.filter
      (fun c => ¬ (c.company_id == id && sqlEq c.accountant_id u.accountantId))
    let db' := { db with companies := kept }
    match gone with
    | [] => (Resp.err 404, db')
    | _ :: _ => (Resp.ok (), db')

/-- Route POST /companies/associate/:companyId (part_004 lines 206-231),
behind `authorizeAccountant`:
`UPDATE companies SET accountant_id = $1 WHERE company_id = $2 AND
accountant_id IS NULL RETURNING *`; zero updated rows give 404 (company
absent or already associated). -/
def associateCompany (u : Principal) (companyId : Nat) (db : Db) :
    Resp Company × Db :=
  match authorizeAccountant u with
  | MwDecision.deny403 => (Resp.err 403, db)
  | MwDecision.proceed =>
    let pred : Company → Bool :=
      fun c => c.company_id == companyId && c.accountant_id == none
    let setAcc : Company → Company := fun c => { c with accountant_id := u.accountantId }
    let returned := (db.companies.filter pred).map setAcc
    let updated := db.companies.map (fun c => if pred c then setAcc c else c)
    let db' := { db with companies := updated }
    match returned with
    | [] => (Resp.err 404, db')
    | c :: _ => (Resp.ok c, db')

/-- Route handler GET /employees/:id (part_003 lines 67-92).  Accountant:
join against `companies` with `c.accountant_id = user.accountantId`;
client: `company_id = user.companyId`.  Empty result gives 404. -/
def getEmployee (u : Principal) (id : Nat) (db : Db) : Resp Employee :=
  let found :=
    match u.role with
    | Role.accountant =>
      db.employees.find? (fun e => e.employee_id == id &&
        db.companies.any (fun c => sqlEq e.company_id (some c.company_id) &&
          sqlEq c.accountant_id u.accountantId))
    | Role.client =>
      db.employees.find? (fun e => e.employee_id == id &&
        sqlEq e.company_id u.companyId)
  match found with
  | none => Resp.err 404
  | some e => Resp.ok e

/-- Route GET /employees/:id as wired: the router-relative path is `/<id>`,
which contains neither `/offboard` nor `/employees/`, and the GET carries no
body, so `authorizeClientOrAccountant` runs its company branch with
`companyIdParam = none` and necessarily proceeds; the handler does all
filtering. -/
def getEmployeeRoute (u : Principal) (id : Nat) (db : Db) : Resp Employee :=
  match authorizeClientOrAccountant u false none (some id) db with
  | MwDecision.deny403 => Resp.err 403
  | MwDecision.proceed => getEmployee u id db

/-- Request body of POST /employees (part_003): `company_id` is optional;
banking numbers are validated but not inserted by this handler. -/
structure EmployeeCreateBody where
  company_id : Option Nat
  first_name : String
  last_name : String
  date_of_birth : String
  full_address : String
  email : String
  phone_number : String
  sin : String
  start_date : String
  position : String
  pay_type : String
  pay_rate : Int
  pay_schedule : String
  institution_number : Option String
  transit_number : Option String
  account_number : Option String
  consent_electronic_documents : Bool
deriving DecidableEq, Repr

/-- Row inserted by POST /employees (part_003 lines 131-138): the 14 listed
columns; banking numbers are not in the INSERT list and default to NULL,
`is_active` defaults to TRUE. -/
def newEmployeeRow (newId : Nat) (now : Int) (companyId : Option Nat)
    (b : EmployeeCreateBody) : Employee :=
  { employee_id := newId
    company_id := companyId
    first_name := b.first_name
    last_name := b.last_name
    date_of_birth := b.date_of_birth
    full_address := b.full_address
    email := b.email
    phone_number := b.phone_number
    sin := b.sin
    start_date := b.start_date
    position := b.position
    pay_type := b.pay_type
    pay_rate := b.pay_rate
    pay_schedule := b.pay_schedule
    institution_number := none
    transit_number := none
    account_number := none
    consent_electronic_documents := b.consent_electronic_documents
    is_active := true
    updated_at := now }

/-- Route handler POST /employees (part_003 lines 95-147).  The target
company resolves to `user.companyId` for a client — the body value is not
consulted — and to `body.company_id` for an accountant, who must own that
company (JS `!==` on the looked-up `accountant_id`). -/
def createEmployee (validate : EmployeeCreateBody → Bool) (newId : Nat) (now : Int)
    (u : Principal) (b : EmployeeCreateBody) (db : Db) : Resp Employee × Db :=
  if ¬ validate b then (Resp.err 400, db)
  else
    let companyId : Option Nat :=
      match u.role with
      | Role.client => u.companyId
      | Role.accountant => b.company_id
    let ownershipOk : Bool :=
      match u.role with
      | Role.client => true
      | Role.accountant =>
        match companyId with
        | none => false
        | some cid =>
          match db.findCompany cid with
          | none => false
          | some c => c.accountant_id == u.accountantId
    if ¬ ownershipOk then (Resp.err 403, db)
    else
      let e := newEmployeeRow newId now companyId b
      (Resp.ok e, { db with employees := db.employees ++ [e] })

/-- Request body of PUT /employees/:id (part_003): every field optional,
including `is_active`. -/
structure EmployeeUpdateBody where
  first_name : Option String
  last_name : Option String
  date_of_birth : Option String
  full_address : Option String
  email : Option String
  phone_number : Option String
  sin : Option String
  start_date : Option String
  position : Option String
  pay_type : Option String
  pay_rate : Option Int
  pay_schedule : Option String
  institution_number : Option String
  transit_number : Option String
  account_number : Option String
  consent_electronic_documents : Option Bool
  is_active : Option Bool
deriving DecidableEq, Repr

/-- SET clause of PUT /employees/:id: every body key present becomes
`key = value`, plus `updated_at = CURRENT_TIMESTAMP`. -/
def applyEmployeeUpdate (b : EmployeeUpdateBody) (now : Int) (e : Employee) : Employee :=
  { e with
    first_name := b.first_name.getD e.first_name
    last_name := b.last_name.getD e.last_name
    date_of_birth := b.date_of_birth.getD e.date_of_birth
    full_address := b.full_address.getD e.full_address
    email := b.email.getD e.email
    phone_number := b.phone_number.getD e.phone_number
    sin := b.sin.getD e.sin
    start_date := b.start_date.getD e.start_date
    position := b.position.getD e.position
    pay_type := b.pay_type.getD e.pay_type
    pay_rate := b.pay_rate.getD e.pay_rate
    pay_schedule := b.pay_schedule.getD e.pay_schedule
    institution_number := match b.institution_number with
      | some s => some s
      | none => e.institution_number
    transit_number := match b.transit_number with
      | some s => some s
      | none => e.transit_number
    account_number := match b.account_number with
      | some s => some s
      | none => e.account_number
    consent_electronic_documents :=
      b.consent_electronic_documents.getD e.consent_electronic_documents
    is_active := b.is_active.getD e.is_active
    updated_at := now }

/-- WHERE clause of PUT /employees/:id: accountant joins `companies` on
ownership; client matches `company_id = user.companyId`. -/
def employeeUpdateWhere (u : Principal) (id : Nat) (db : Db) (e : Employee) : Bool :=
  e.employee_id == id &&
    (match u.role with
     | Role.accountant =>
       db.companies.any (fun c => sqlEq e.company_id (some c.company_id) &&
         sqlEq c.accountant_id u.accountantId)
     | Role.client => sqlEq e.company_id u.companyId)

/-- Route handler PUT /employees/:id (part_003 lines 150-227).  Zero updated
rows give 404; otherwise the first returned row is the response. -/
def updateEmployee (validate : EmployeeUpdateBody → Bool) (now : Int)
    (u : Principal) (id : Nat) (b : EmployeeUpdateBody) (db : Db) :
    Resp Employee × Db :=
  if ¬ validate b then (Resp.err 400, db)
  else
    let returned := (db.employees.filter (employeeUpdateWhere u id db)).map
      (applyEmployeeUpdate b now)
    let updated := db.employees.map
      (fun e => if employeeUpdateWhere u id db e then applyEmployeeUpdate b now e else e)
    let db' := { db with employees := updated }
    match returned with
    | [] => (Resp.err 404, db')
    | e :: _ => (Resp.ok e, db')

/-- Request body of POST /employees/:id/offboard. -/
structure OffboardBody where
  reason_for_leaving : String
  last_day_worked : String
  payout_accrued_vacation : Bool
  callback_date : Option String
deriving DecidableEq, Repr

/-- Validator `body("reason_for_leaving").isIn([...])` of the offboarding
route, embedded concretely. -/
def validReason (r : String) : Bool :=
  r == "QUIT" || r == "FIRED" || r == "LAID_OFF" || r == "RETIRED" || r == "OTHER"

/-- Validation chain of the offboarding route: concrete reason enum; the
date-format checks of the external validator are a parameter. -/
def offboardBodyValid (isDate : String → Bool) (b : OffboardBody) : Bool :=
  validReason b.reason_for_leaving && isDate b.last_day_worked &&
    (match b.callback_date with
     | none => true
     | some d => isDate d)

/-- Route handler POST /employees/:id/offboard (part_003 lines 230-298).
The body runs inside BEGIN/COMMIT on a dedicated connection: staged writes
are visible only after COMMIT, and any thrown query rolls everything back.
`fails n` says whether the n-th query of the transaction throws
(0: the existence SELECT, 1: the UPDATE, 2: the INSERT, 3: COMMIT). -/
def offboardEmployee (isDate : String → Bool) (fails : Nat → Bool) (now : Int)
    (id : Nat) (b : OffboardBody) (db : Db) : Resp Unit × Db :=
  if ¬ offboardBodyValid isDate b then (Resp.err 400, db)
  else if fails 0 then (Resp.err 500, db)
  else
    match db.findEmployee id with
    | none => (Resp.err 404, db)  -- ROLLBACK, nothing written
    | some _ =>
      if fails 1 then (Resp.err 500, db)  -- UPDATE threw, ROLLBACK
      else
        let employees1 := db.employees.map
          (fun e => if e.employee_id == id then
            { e with is_active := false, updated_at := now } else e)
        if fails 2 then (Resp.err 500, db)  -- INSERT threw, ROLLBACK
        else
          let row : OffboardingRecord :=
            { employee_id := id
              reason_for_leaving := b.reason_for_leaving
              last_day_worked := b.last_day_worked
              payout_accrued_vacation := b.payout_accrued_vacation
              callback_date := jsOrNull b.callback_date }
          if fails 3 then (Resp.err 500, db)  -- COMMIT threw, ROLLBACK
          else
            (Resp.ok (), { db with
              employees := employees1
              offboarding := db.offboarding ++ [row] })

/-- Route POST /employees/:id/offboard as wired: the router-relative path
`/<id>/offboard` makes `authorizeClientOrAccountant` take its
employee-scoped branch (which lets a missing employee through so the
handler can 404), then the transactional handler runs. -/
def offboardRoute (isDate : String → Bool) (fails : Nat → Bool) (now : Int)
    (u : Principal) (id : Nat) (b : OffboardBody) (db : Db) : Resp Unit × Db :=
  match authorizeClientOrAccountant u true none (some id) db with
  | MwDecision.deny403 => (Resp.err 403, db)
  | MwDecision.proceed => offboardEmployee isDate fails now id b db

/-- Request body of PUT /payroll/:id: every field optional. -/
structure PayrollUpdateBody where
  employee_id : Option Nat
  pay_period_start : Option String
  pay_period_end : Option String
  hours_worked : Option Int
  overtime_hours : Option Int
  gross_pay : Option Int
  deductions : Option Int
  net_pay : Option Int
  payment_date : Option String
deriving DecidableEq, Repr

/-- SET clause of PUT /payroll/:id: every body key present becomes
`key = value`, plus `updated_at = CURRENT_TIMESTAMP`. -/
def applyPayrollUpdate (b : PayrollUpdateBody) (now : Int) (pe : PayrollEntry) :
    PayrollEntry :=
  { pe with
    employee_id := b.employee_id.getD pe.employee_id
    pay_period_start := b.pay_period_start.getD pe.pay_period_start
    pay_period_end := b.pay_period_end.getD pe.pay_period_end
    hours_worked := b.hours_worked.getD pe.hours_worked
    overtime_hours := b.overtime_hours.getD pe.overtime_hours
    gross_pay := b.gross_pay.getD pe.gross_pay
    deductions := b.deductions.getD pe.deductions
    net_pay := b.net_pay.getD pe.net_pay
    payment_date := b.payment_date.getD pe.payment_date
    updated_at := now }

/-- Thirty days in seconds; `NOW() - INTERVAL "30 days"` is `now -
thirtyDays`. -/
def thirtyDays : Int := 30 * 24 * 60 * 60

/-- WHERE clause of PUT /payroll/:id (authorizeClientOrAccountant version,
payroll.js lines 439-467).  Accountant: join employee and owning company on
`accountant_id`; client: join employee on `company_id = user.companyId`
plus `pe.created_at > NOW() - INTERVAL "30 days"` — the staleness check is
built only into the client branch. -/
def payrollUpdateWhere (u : Principal) (now : Int) (id : Nat) (db : Db)
    (pe : PayrollEntry) : Bool :=
  pe.payroll_id == id &&
    (match u.role with
     | Role.accountant =>
       db.employees.any (fun e => e.employee_id == pe.employee_id &&
         db.companies.any (fun c => sqlEq e.company_id (some c.company_id) &&
           sqlEq c.accountant_id u.accountantId))
     | Role.client =>
       db.employees.any (fun e => e.employee_id == pe.employee_id &&
         sqlEq e.company_id u.companyId) &&
       decide (pe.created_at > now - thirtyDays))

/-- Route PUT /payroll/:id (payroll.js lines 406-482, the
authorizeClientOrAccountant version).  The middleware sees the
router-relative path `/<id>` and a body without `company_id`, so it
necessarily proceeds; the handler then runs the guarded UPDATE and answers
403 whenever zero rows were updated (absent, stale, or not owned). -/
def updatePayrollEntry (validate : PayrollUpdateBody → Bool) (now : Int)
    (u : Principal) (id : Nat) (b : PayrollUpdateBody) (db : Db) :
    Resp PayrollEntry × Db :=
  match authorizeClientOrAccountant u false none (some id) db with
  | MwDecision.deny403 => (Resp.err 403, db)
  | MwDecision.proceed =>
    if ¬ validate b then (Resp.err 400, db)
    else
      let returned := (db.payroll_entries.filter (payrollUpdateWhere u now id db)).map
        (applyPayrollUpdate b now)
      let updated := db.payroll_entries.map
        (fun pe => if payrollUpdateWhere u now id db pe then applyPayrollUpdate b now pe else pe)
      let db' := { db with payroll_entries := updated }
      match returned with
      | [] => (Resp.err 403, db')
      | pe :: _ => (Resp.ok pe, db')

/-! Concrete database states and requests, used to evaluate the operations
at explicit inputs. -/

/-- Client principal of company 5. -/
def clientOfCompany5 : Principal :=
  { userId := 10, role := Role.client, accountantId := none, companyId := some 5 }

/-- Client principal of company 1. -/
def clientOfCompany1 : Principal :=
  { userId := 11, role := Role.client, accountantId := none, companyId := some 1 }

/-- Accountant principal with accountant id 2. -/
def accountantTwo : Principal :=
  { userId := 20, role := Role.accountant, accountantId := some 2, companyId := none }

/-- Company 5, owned by accountant 1. -/
def companyFive : Company :=
  { company_id := 5, accountant_id := some 1, company_name := "Alpha Inc",
    contact_person := "Ann", email := "ann@alpha.test", phone := "5550001",
    address := "1 Alpha Way", updated_at := 0 }

/-- Company 7, owned by accountant 2: a company foreign to
`clientOfCompany5`. -/
def companySeven : Company :=
  { company_id := 7, accountant_id := some 2, company_name := "Beta Ltd",
    contact_person := "Bob", email := "bob@beta.test", phone := "5550002",
    address := "2 Beta Rd", updated_at := 0 }

/-- Company 1, owned by accountant 2. -/
def companyOne : Company :=
  { company_id := 1, accountant_id := some 2, company_name := "Gamma Co",
    contact_person := "Gil", email := "gil@gamma.test", phone := "5550003",
    address := "3 Gamma St", updated_at := 0 }

/-- Database holding companies 5 and 7 only. -/
def dbTwoCompanies : Db :=
  { companies := [companyFive, companySeven], employees := [],
    offboarding := [], payroll_entries := [] }

/-- Active employee 3 of company 1. -/
def employeeThree : Employee :=
  { employee_id := 3, company_id := some 1, first_name := "Eva",
    last_name := "Stone", date_of_birth := "1990-01-01",
    full_address := "9 Elm St", email := "eva@gamma.test",
    phone_number := "5550004", sin := "123456789", start_date := "2020-01-01",
    position := "Clerk", pay_type := "HOURLY", pay_rate := 2500,
    pay_schedule := "WEEKLY", institution_number := none,
    transit_number := none, account_number := none,
    consent_electronic_documents := true, is_active := true, updated_at := 0 }

/-- Payroll entry 4 of employee 3, created at time 0 (stale for any recent
`now`). -/
def staleEntry : PayrollEntry :=
  { payroll_id := 4, employee_id := 3, pay_period_start := "2024-01-01",
    pay_period_end := "2024-01-07", hours_worked := 40, overtime_hours := 0,
    gross_pay := 100000, deductions := 20000, net_pay := 80000,
    payment_date := "2024-01-10", created_at := 0, updated_at := 0 }

/-- Database with company 1, its employee 3 and the stale payroll entry 4. -/
def dbPayroll : Db :=
  { companies := [companyOne], employees := [employeeThree],
    offboarding := [], payroll_entries := [staleEntry] }

/-- Inactive employee 1 of company 5. -/
def inactiveEmployee : Employee :=
  { employeeThree with
    employee_id := 1
    company_id := some 5
    email := "ina@alpha.test"
    is_active := false }

/-- Database with company 5 and its already-inactive employee 1. -/
def dbInactive : Db :=
  { companies := [companyFive], employees := [inactiveEmployee],
    offboarding := [], payroll_entries := [] }

/-- Unassociated company 9. -/
def companyNineUnassociated : Company :=
  { company_id := 9, accountant_id := none, company_name := "Delta LLC",
    contact_person := "Dee", email := "dee@delta.test", phone := "5550005",
    address := "4 Delta Ave", updated_at := 0 }

/-- Database for the association scenarios: company 1 already associated
with accountant 2, company 9 unassociated. -/
def dbAssoc : Db :=
  { companies := [companyOne, companyNineUnassociated], employees := [],
    offboarding := [], payroll_entries := [] }

/-- Update body with no field supplied. -/
def emptyPayrollBody : PayrollUpdateBody :=
  { employee_id := none, pay_period_start := none, pay_period_end := none,
    hours_worked := none, overtime_hours := none, gross_pay := none,
    deductions := none, net_pay := none, payment_date := none }

/-- Employee update body supplying only `is_active := true`. -/
def reactivateBody : EmployeeUpdateBody :=
  { first_name := none, last_name := none, date_of_birth := none,
    full_address := none, email := none, phone_number := none, sin := none,
    start_date := none, position := none, pay_type := none, pay_rate := none,
    pay_schedule := none, institution_number := none, transit_number := none,
    account_number := none, consent_electronic_documents := none,
    is_active := some true }

/-- Well-formed offboarding request body. -/
def offboardGoodBody : OffboardBody :=
  { reason_for_leaving := "QUIT", last_day_worked := "2024-02-29",
    payout_accrued_vacation := true, callback_date := none }

/-- Offboarding body with a reason outside the enum. -/
def offboardBadBody : OffboardBody :=
  { offboardGoodBody with reason_for_leaving := "RESIGNED" }

/-- Employee creation body that tries to smuggle `company_id := 777`. -/
def createBodySmuggled : EmployeeCreateBody :=
  { company_id := some 777, first_name := "New", last_name := "Hire",
    date_of_birth := "1995-05-05", full_address := "5 New St",
    email := "new@alpha.test", phone_number := "5550006", sin := "987654321",
    start_date := "2024-03-01", position := "Analyst", pay_type := "SALARY",
    pay_rate := 60000, pay_schedule := "MONTHLY", institution_number := none,
    transit_number := none, account_number := none,
    consent_electronic_documents := true }

/-- Validator collaborator that accepts every body. -/
def acceptAll {α : Type} : α → Bool := fun _ => true

/-- Error oracle of a storage layer where no query throws. -/
def noFailure : Nat → Bool := fun _ => false

/-- Token verifier that rejects every token. -/
def rejectAllTokens : String → TokenVerify := fun _ => TokenVerify.invalid

/-- Token verifier accepting exactly the token string of accountant 2. -/
def verifyAccountantTwo : String → TokenVerify :=
  fun t => if t = "tok-acc2" then TokenVerify.valid accountantTwo else TokenVerify.invalid

/-- Uniqueness of primary keys in the `companies` table. -/
def companiesKeyUnique (db : Db) : Prop :=
  db.companies.Pairwise (fun c c' => c.company_id ≠ c'.company_id)

instance (db : Db) : Decidable (companiesKeyUnique db) := by
  unfold companiesKeyUnique; infer_instance

/-- Association frame property between two database states: a company row
whose `accountant_id` was already set keeps exactly that value in every row
of the new state carrying its key. -/
def preservesAssoc (db db' : Db) : Prop :=
  ∀ c ∈ db.companies, ∀ c' ∈ db'.companies,
    c'.company_id = c.company_id → c.accountant_id ≠ none →
    c'.accountant_id = c.accountant_id

/-! General lemmas about the SQL-update embedding. -/

/-- Mapping a guarded rewrite over rows none of which match leaves the table
unchanged. -/
theorem map_guarded_id {α : Type} (p : α → Bool) (f : α → α) :
    ∀ l : List α, (∀ x ∈ l, p x = false) →
      l.map (fun x => if p x then f x else x) = l
  | [], _ => rfl
  | x :: xs, h => by
    have hx : p x = false := h x (by simp)
    have hxs := map_guarded_id p f xs (fun y hy => h y (by simp [hy]))
    simp [hx, hxs]

/-- Under pairwise-distinct keys, two company rows of the same table with
the same key are the same row. -/
theorem company_eq_of_key_eq :
    ∀ {l : List Company},
      l.Pairwise (fun c c' => c.company_id ≠ c'.company_id) →
      ∀ a ∈ l, ∀ b ∈ l, a.company_id = b.company_id → a = b := by
  intro l
  induction l with
  | nil =>
    intro _ a ha
    cases ha
  | cons x xs ih =>
    intro h a ha b hb hk
    have hhead := (List.pairwise_cons.mp h).1
    have htail := (List.pairwise_cons.mp h).2
    rcases List.mem_cons.mp ha with rfl | ha₁
    · rcases List.mem_cons.mp hb with rfl | hb₁
      · rfl
      · exact absurd hk (hhead b hb₁)
    · rcases List.mem_cons.mp hb with rfl | hb₁
      · exact absurd hk.symm (hhead a ha₁)
      · exact ih htail a ha₁ b hb₁ hk

/-- A state transition that leaves the `companies` table untouched preserves
every existing accountant association. -/
theorem preservesAssoc_of_companies_eq {db db' : Db}
    (hu : companiesKeyUnique db) (h : db'.companies = db.companies) :
    preservesAssoc db db' := by
  intro c hc c' hc' hk _
  rw [h] at hc'
  have : c' = c := company_eq_of_key_eq hu c' hc' c hc hk
  rw [this]

/-- The employee-creation handler never writes the `companies` table. -/
theorem createEmployee_keeps_companies (validate : EmployeeCreateBody → Bool)
    (newId : Nat) (now : Int) (u : Principal) (b : EmployeeCreateBody) (db : Db) :
    (createEmployee validate newId now u b db).2.companies = db.companies := by
  unfold createEmployee
  dsimp only
  split
  · rfl
  · split
    · rfl
    · rfl

/-- The employee-update handler never writes the `companies` table. -/
theorem updateEmployee_keeps_companies (validate : EmployeeUpdateBody → Bool)
    (now : Int) (u : Principal) (id : Nat) (b : EmployeeUpdateBody) (db : Db) :
    (updateEmployee validate now u id b db).2.companies = db.companies := by
  unfold updateEmployee
  dsimp only
  split
  · rfl
  · split
    · rfl
    · rfl

/-- The offboarding route never writes the `companies` table. -/
theorem offboardRoute_keeps_companies (isDate : String → Bool)
    (fails : Nat → Bool) (now : Int) (u : Principal) (id : Nat)
    (b : OffboardBody) (db : Db) :
    (offboardRoute isDate fails now u id b db).2.companies = db.companies := by
  unfold offboardRoute offboardEmployee
  split
  · rfl
  · dsimp only
    split
    · rfl
    · split
      · rfl
      · split
        · rfl
        · split
          · rfl
          · split
            · rfl
            · split
              · rfl
              · rfl

/-- The payroll-update route never writes the `companies` table. -/
theorem updatePayrollEntry_keeps_companies (validate : PayrollUpdateBody → Bool)
    (now : Int) (u : Principal) (id : Nat) (b : PayrollUpdateBody) (db : Db) :
    (updatePayrollEntry validate now u id b db).2.companies = db.companies := by
  unfold updatePayrollEntry
  split
  · rfl
  · dsimp only
    split
    · rfl
    · split
      · rfl
      · rfl

/-- Claim C1: the spec requires that a Client principal obtain the row of
GET /companies/:id only for its own company and be denied on every other
company id.  The code violates this: on this route the middleware reads
`req.params.companyId`, which does not exist (the parameter is `id`), so it
checks nothing, and the client branch of the handler queries by
`company_id` alone.  Evaluated at the failing input, the client of company
5 receives the full row of company 7, owned by accountant 2. -/
theorem client_reads_foreign_company_row :
    clientOfCompany5.companyId = some 5 ∧
    companySeven.company_id = 7 ∧
    companySeven.accountant_id = some 2 ∧
    getCompanyRoute clientOfCompany5 7 dbTwoCompanies = Resp.ok companySeven :=
  ⟨rfl, rfl, rfl, rfl⟩

/-- Claim C9 (counterexample): the claim says an invalid or expired bearer
token produces status 401 like a missing one; `authenticateToken` actually
answers 403 for every token that fails verification, and 401 only when the
token is absent. -/
theorem invalid_token_gets_403_not_401 :
    authenticateToken rejectAllTokens (some "Bearer expired") = AuthnResult.invalid403 ∧
    AuthnResult.invalid403 ≠ AuthnResult.missing401 :=
  ⟨by decide, by decide⟩

/-- Claim C9 (amended): a missing bearer token produces 401; a present
token failing verification produces 403 — the same status family as policy
denial — and a verified token attaches the decoded principal. -/
theorem authn_status_code_partition (verify : String → TokenVerify)
    (h t : String) (u : Principal) :
    (authenticateToken verify none = AuthnResult.missing401) ∧
    (tokenOf (some h) = none →
      authenticateToken verify (some h) = AuthnResult.missing401) ∧
    (tokenOf (some h) = some t → verify t = TokenVerify.invalid →
      authenticateToken verify (some h) = AuthnResult.invalid403) ∧
    (tokenOf (some h) = some t → verify t = TokenVerify.valid u →
      authenticateToken verify (some h) = AuthnResult.authenticated u) := by
  refine ⟨rfl, ?_, ?_, ?_⟩
  · intro ht
    unfold authenticateToken
    rw [ht]
  · intro ht hv
    unfold authenticateToken
    rw [ht]
    dsimp only
    rw [hv]
  · intro ht hv
    unfold authenticateToken
    rw [ht]
    dsimp only
    rw [hv]

/-- Witness for the amended C9 statement at concrete headers and verifier:
the well-formed bearer header authenticates, the rejected one gets 403. -/
theorem authn_status_code_partition_witness :
    authenticateToken verifyAccountantTwo (some "Bearer tok-acc2")
      = AuthnResult.authenticated accountantTwo ∧
    authenticateToken rejectAllTokens (some "Bearer bad") = AuthnResult.invalid403 :=
  ⟨(authn_status_code_partition verifyAccountantTwo "Bearer tok-acc2" "tok-acc2"
      accountantTwo).2.2.2 (by decide) (by decide),
   (authn_status_code_partition rejectAllTokens "Bearer bad" "bad"
      accountantTwo).2.2.1 (by decide) (by decide)⟩

/-- Claim C2: a Client updating any payroll entry whose `created_at` lies
more than 30 days in the past receives 403 whatever the supplied field
values, and the table is unchanged; an Accountant owning the company of the
entry is not age-restricted and the same update goes through. -/
theorem payroll_update_thirty_day_rule
    (validate : PayrollUpdateBody → Bool) (now : Int) (u ua : Principal)
    (id a : Nat) (b : PayrollUpdateBody) (db : Db) :
    (u.role = Role.client → validate b = true →
      (∀ pe ∈ db.payroll_entries, pe.payroll_id = id →
         pe.created_at < now - thirtyDays) →
      updatePayrollEntry validate now u id b db = (Resp.err 403, db)) ∧
    (ua.role = Role.accountant → ua.accountantId = some a → validate b = true →
      ∀ pe ∈ db.payroll_entries, pe.payroll_id = id →
      ∀ e ∈ db.employees, e.employee_id = pe.employee_id →
      ∀ c ∈ db.companies, e.company_id = some c.company_id →
      c.accountant_id = some a →
      ∃ pe2, (updatePayrollEntry validate now ua id b db).1 = Resp.ok pe2) := by
  constructor
  · intro hrole hv hstale
    obtain ⟨uid, urole, uacc, ucomp⟩ := u
    dsimp only at hrole
    subst hrole
    have hmw : authorizeClientOrAccountant
        ⟨uid, Role.client, uacc, ucomp⟩ false none (some id) db
        = MwDecision.proceed := rfl
    unfold updatePayrollEntry
    rw [hmw]
    dsimp only
    split
    · next hneg => exact absurd hv hneg
    · have hfil : db.payroll_entries.filter
          (payrollUpdateWhere ⟨uid, Role.client, uacc, ucomp⟩ now id db) = [] := by
        apply List.filter_eq_nil_iff.mpr
        intro pe hpe
        by_cases hid : pe.payroll_id = id
        · have hlt := hstale pe hpe hid
          have hd : decide (pe.created_at > now - thirtyDays) = false := by
            simp only [decide_eq_false_iff_not]
            exact not_lt_of_gt hlt
          simp [payrollUpdateWhere, hd]
        · simp [payrollUpdateWhere, hid]
      rw [hfil]
      dsimp only [List.map_nil]
      have hkeep := map_guarded_id
        (payrollUpdateWhere ⟨uid, Role.client, uacc, ucomp⟩ now id db)
        (applyPayrollUpdate b now) db.payroll_entries
        (by
          intro pe hpe
          have := List.filter_eq_nil_iff.mp hfil pe hpe
          exact Bool.eq_false_iff.mpr this)
      rw [hkeep]
  · intro hrole ha hv pe hpe hid e he hee c hc hec hca
    obtain ⟨uid, urole, uacc, ucomp⟩ := ua
    dsimp only at hrole ha
    subst hrole
    subst ha
    have hmw : authorizeClientOrAccountant
        ⟨uid, Role.accountant, some a, ucomp⟩ false none (some id) db
        = MwDecision.proceed := rfl
    unfold updatePayrollEntry
    rw [hmw]
    dsimp only
    split
    · next hneg => exact absurd hv hneg
    · have hpred : payrollUpdateWhere
          ⟨uid, Role.accountant, some a, ucomp⟩ now id db pe = true := by
        unfold payrollUpdateWhere
        dsimp only
        rw [Bool.and_eq_true]
        constructor
        · exact beq_iff_eq.mpr hid
        · rw [List.any_eq_true]
          refine ⟨e, he, ?_⟩
          rw [Bool.and_eq_true]
          constructor
          · exact beq_iff_eq.mpr hee
          · rw [List.any_eq_true]
            refine ⟨c, hc, ?_⟩
            rw [Bool.and_eq_true]
            constructor
            · rw [hec]
              simp [sqlEq]
            · rw [hca]
              simp [sqlEq]
      have hmem : pe ∈ db.payroll_entries.filter
          (payrollUpdateWhere ⟨uid, Role.accountant, some a, ucomp⟩ now id db) :=
        List.mem_filter.mpr ⟨hpe, hpred⟩
      have hne := List.ne_nil_of_mem hmem
      obtain ⟨h0, t0, heq⟩ := List.exists_cons_of_ne_nil hne
      rw [heq]
      dsimp only [List.map_cons]
      exact ⟨applyPayrollUpdate b now h0, rfl⟩

/-- Witness for the 30-day rule at a concrete store: the client of company
1 is refused on the stale entry 4 and the store is untouched, while
accountant 2 (owner of company 1) succeeds on the same entry. -/
theorem payroll_update_thirty_day_rule_witness :
    updatePayrollEntry acceptAll (100 * thirtyDays) clientOfCompany1 4
      emptyPayrollBody dbPayroll = (Resp.err 403, dbPayroll) ∧
    ∃ pe2, (updatePayrollEntry acceptAll (100 * thirtyDays) accountantTwo 4
      emptyPayrollBody dbPayroll).1 = Resp.ok pe2 :=
  ⟨(payroll_update_thirty_day_rule acceptAll (100 * thirtyDays)
      clientOfCompany1 accountantTwo 4 2 emptyPayrollBody dbPayroll).1
      rfl rfl (by decide),
   (payroll_update_thirty_day_rule acceptAll (100 * thirtyDays)
      clientOfCompany1 accountantTwo 4 2 emptyPayrollBody dbPayroll).2
      rfl rfl rfl staleEntry (by decide) rfl employeeThree (by decide) rfl
      companyOne (by decide) rfl rfl⟩

/-- Equality content of `sqlEq` against a non-NULL right operand. -/
theorem sqlEq_some_iff {o : Option Nat} {a : Nat} :
    sqlEq o (some a) = true ↔ o = some a := by
  cases o with
  | none => simp [sqlEq]
  | some x => simp [sqlEq]

/-- Claim C5: an Accountant reading a single employee succeeds exactly when
the owning company of the employee carries the accountant id of the caller,
and otherwise receives no employee data (404). -/
theorem accountant_employee_read_scoped
    (A : Principal) (a id : Nat) (db : Db) (E : Employee) (c : Company)
    (hrole : A.role = Role.accountant) (ha : A.accountantId = some a)
    (hE : E ∈ db.employees) (hid : E.employee_id = id)
    (hc : c ∈ db.companies) (hown : E.company_id = some c.company_id)
    (huniqE : ∀ e ∈ db.employees, e.employee_id = id → e = E)
    (huniqC : ∀ cc ∈ db.companies, cc.company_id = c.company_id → cc = c) :
    (c.accountant_id = some a → getEmployeeRoute A id db = Resp.ok E) ∧
    (c.accountant_id ≠ some a → getEmployeeRoute A id db = Resp.err 404) := by
  obtain ⟨uid, urole, uacc, ucomp⟩ := A
  dsimp only at hrole ha
  subst hrole
  subst ha
  have hmw : authorizeClientOrAccountant
      ⟨uid, Role.accountant, some a, ucomp⟩ false none (some id) db
      = MwDecision.proceed := rfl
  constructor
  · intro hacc
    unfold getEmployeeRoute
    rw [hmw]
    dsimp only
    unfold getEmployee
    dsimp only
    have hpredE : (E.employee_id == id &&
        db.companies.any (fun cc => sqlEq E.company_id (some cc.company_id) &&
          sqlEq cc.accountant_id (some a))) = true := by
      rw [Bool.and_eq_true]
      refine ⟨beq_iff_eq.mpr hid, ?_⟩
      rw [List.any_eq_true]
      refine ⟨c, hc, ?_⟩
      rw [Bool.and_eq_true]
      exact ⟨by rw [hown]; simp [sqlEq], by rw [hacc]; simp [sqlEq]⟩
    cases hfind : db.employees.find? (fun e => e.employee_id == id &&
        db.companies.any (fun cc => sqlEq e.company_id (some cc.company_id) &&
          sqlEq cc.accountant_id (some a))) with
    | none =>
      exfalso
      exact (List.find?_eq_none.mp hfind E hE) hpredE
    | some y =>
      have hy := List.find?_some hfind
      have hymem := List.mem_of_find?_eq_some hfind
      rw [Bool.and_eq_true] at hy
      have hyE : y = E := huniqE y hymem (beq_iff_eq.mp hy.1)
      rw [hyE]
  · intro hacc
    unfold getEmployeeRoute
    rw [hmw]
    dsimp only
    unfold getEmployee
    dsimp only
    have hfind : db.employees.find? (fun e => e.employee_id == id &&
        db.companies.any (fun cc => sqlEq e.company_id (some cc.company_id) &&
          sqlEq cc.accountant_id (some a))) = none := by
      apply List.find?_eq_none.mpr
      intro e he hpred
      rw [Bool.and_eq_true] at hpred
      have heE : e = E := huniqE e he (beq_iff_eq.mp hpred.1)
      subst heE
      rw [List.any_eq_true] at hpred
      obtain ⟨cc, hccmem, hcc⟩ := hpred.2
      rw [Bool.and_eq_true] at hcc
      have h1 : e.company_id = some cc.company_id := sqlEq_some_iff.mp hcc.1
      have hkey : cc.company_id = c.company_id := by
        rw [hown] at h1
        exact (Option.some.injEq _ _ ▸ h1).symm ▸ rfl
      have hccc : cc = c := huniqC cc hccmem hkey
      subst hccc
      exact hacc (sqlEq_some_iff.mp hcc.2)
    rw [hfind]

/-- Witness for the accountant single-employee read at a concrete store:
accountant 2 owns company 1 and therefore obtains employee 3. -/
theorem accountant_employee_read_scoped_witness :
    getEmployeeRoute accountantTwo 3 dbPayroll = Resp.ok employeeThree :=
  (accountant_employee_read_scoped accountantTwo 2 3 dbPayroll employeeThree
    companyOne rfl rfl (by decide) rfl (by decide) rfl
    (by decide) (by decide)).1 rfl

/-- Claim C6: the employee-creation handler resolves the target company to
the companyId of a Client caller, not reading the body value (two bodies
differing only in `company_id` behave identically when the validator treats
them alike), and for an Accountant uses the body-supplied `company_id` and
succeeds only when that company is owned by the caller. -/
theorem employee_creation_company_resolution
    (validate : EmployeeCreateBody → Bool) (newId : Nat) (now : Int)
    (u : Principal) (b : EmployeeCreateBody) (db : Db) (x y : Option Nat)
    (e1 e2 : Employee) (d1 d2 : Db) :
    (u.role = Role.client →
      createEmployee validate newId now u b db = (Resp.ok e1, d1) →
      e1.company_id = u.companyId) ∧
    (u.role = Role.client →
      validate { b with company_id := x } = validate { b with company_id := y } →
      createEmployee validate newId now u { b with company_id := x } db =
        createEmployee validate newId now u { b with company_id := y } db) ∧
    (u.role = Role.accountant →
      createEmployee validate newId now u b db = (Resp.ok e2, d2) →
      e2.company_id = b.company_id ∧
      ∃ c ∈ db.companies, b.company_id = some c.company_id ∧
        c.accountant_id = u.accountantId) := by
  refine ⟨?_, ?_, ?_⟩
  · intro hrole heq
    obtain ⟨uid, urole, uacc, ucomp⟩ := u
    dsimp only at hrole
    subst hrole
    unfold createEmployee at heq
    dsimp only at heq
    split at heq
    · simp at heq
    · rw [if_neg (by simp)] at heq
      injection heq with h1 h2
      injection h1 with h1
      rw [← h1]
      rfl
  · intro hrole hval
    obtain ⟨uid, urole, uacc, ucomp⟩ := u
    dsimp only at hrole
    subst hrole
    unfold createEmployee
    dsimp only
    cases hv : validate { b with company_id := x } with
    | false =>
      have hv2 : validate { b with company_id := y } = false := by
        rw [← hval, hv]
      simp [hv, hv2]
    | true =>
      have hv2 : validate { b with company_id := y } = true := by
        rw [← hval, hv]
      simp [hv, hv2]
      rfl
  · intro hrole heq
    obtain ⟨uid, urole, uacc, ucomp⟩ := u
    dsimp only at hrole
    subst hrole
    unfold createEmployee at heq
    dsimp only at heq
    split at heq
    · simp at heq
    · split at heq
      · simp at heq
      · next hok =>
        have how : (match b.company_id with
            | none => false
            | some cid =>
              match db.findCompany cid with
              | none => false
              | some c => c.accountant_id == uacc) = true := by
          rcases Decidable.not_not.mp hok with h
          exact h
        injection heq with h1 h2
        injection h1 with h1
        constructor
        · rw [← h1]
          rfl
        · cases hb : b.company_id with
          | none => rw [hb] at how; simp at how
          | some cid =>
            rw [hb] at how
            dsimp only at how
            cases hf : db.findCompany cid with
            | none => rw [hf] at how; simp at how
            | some c =>
              rw [hf] at how
              unfold Db.findCompany at hf
              have hmem := List.mem_of_find?_eq_some hf
              have hp := List.find?_some hf
              have hkey : c.company_id = cid := beq_iff_eq.mp hp
              dsimp only at how
              refine ⟨c, hmem, ?_, ?_⟩
              · rw [hkey]
              · exact beq_iff_eq.mp how

/-- Witness for the company resolution of employee creation: the client of
company 5 submits a body naming company 777, and the inserted row still
carries company 5. -/
theorem employee_creation_company_resolution_witness :
    createBodySmuggled.company_id = some 777 ∧
    (newEmployeeRow 7 5 (some 5) createBodySmuggled).company_id = some 5 :=
  ⟨rfl,
   (employee_creation_company_resolution acceptAll 7 5 clientOfCompany5
      createBodySmuggled dbTwoCompanies none none
      (newEmployeeRow 7 5 (some 5) createBodySmuggled)
      (newEmployeeRow 7 5 (some 5) createBodySmuggled)
      { dbTwoCompanies with employees := dbTwoCompanies.employees ++
          [newEmployeeRow 7 5 (some 5) createBodySmuggled] }
      { dbTwoCompanies with employees := dbTwoCompanies.employees ++
          [newEmployeeRow 7 5 (some 5) createBodySmuggled] }).1 rfl rfl⟩

/-- Success shape of the offboarding transaction: a committed run found the
employee and publishes exactly the two staged writes. -/
theorem offboardEmployee_ok (isDate : String → Bool) (fails : Nat → Bool)
    (now : Int) (id : Nat) (b : OffboardBody) (db : Db) {db' : Db}
    (h : offboardEmployee isDate fails now id b db = (Resp.ok (), db')) :
    (∃ e0, db.findEmployee id = some e0) ∧
    db' = { db with
      employees := db.employees.map (fun e => if e.employee_id == id then
        { e with is_active := false, updated_at := now } else e)
      offboarding := db.offboarding ++
        [{ employee_id := id, reason_for_leaving := b.reason_for_leaving,
           last_day_worked := b.last_day_worked,
           payout_accrued_vacation := b.payout_accrued_vacation,
           callback_date := jsOrNull b.callback_date }] } := by
  unfold offboardEmployee at h
  split at h
  · exact absurd (congrArg Prod.fst h) (by simp)
  · split at h
    · exact absurd (congrArg Prod.fst h) (by simp)
    · split at h
      · exact absurd (congrArg Prod.fst h) (by simp)
      · next e0 hfind =>
        split at h
        · exact absurd (congrArg Prod.fst h) (by simp)
        · split at h
          · exact absurd (congrArg Prod.fst h) (by simp)
          · split at h
            · exact absurd (congrArg Prod.fst h) (by simp)
            · injection h with h1 h2
              exact ⟨⟨e0, hfind⟩, h2.symm⟩

/-- Failure shape of the offboarding transaction: every non-OK outcome rolls
back and the store is untouched. -/
theorem offboardEmployee_fail (isDate : String → Bool) (fails : Nat → Bool)
    (now : Int) (id : Nat) (b : OffboardBody) (db : Db) {r : Resp Unit} {db' : Db}
    (h : offboardEmployee isDate fails now id b db = (r, db'))
    (hne : r ≠ Resp.ok ()) : db' = db := by
  unfold offboardEmployee at h
  split at h
  · injection h with h1 h2
    exact h2.symm
  · split at h
    · injection h with h1 h2
      exact h2.symm
    · split at h
      · injection h with h1 h2
        exact h2.symm
      · split at h
        · injection h with h1 h2
          exact h2.symm
        · split at h
          · injection h with h1 h2
            exact h2.symm
          · split at h
            · injection h with h1 h2
              exact h2.symm
            · injection h with h1 h2
              exact absurd h1.symm hne

/-- Claim C3: offboarding is atomic.  A successful call leaves the employee
row inactive and an offboarding row present; any failing call — validation
error, missing employee, or a storage error thrown by any query of the
transaction — leaves every table exactly as it was. -/
theorem offboard_atomicity (isDate : String → Bool) (fails : Nat → Bool)
    (now : Int) (u : Principal) (id : Nat) (b : OffboardBody) (db : Db) :
    ((offboardRoute isDate fails now u id b db).1 = Resp.ok () →
      (∃ e ∈ (offboardRoute isDate fails now u id b db).2.employees,
         e.employee_id = id) ∧
      (∀ e ∈ (offboardRoute isDate fails now u id b db).2.employees,
         e.employee_id = id → e.is_active = false) ∧
      (∃ rec ∈ (offboardRoute isDate fails now u id b db).2.offboarding,
         rec.employee_id = id)) ∧
    ((offboardRoute isDate fails now u id b db).1 ≠ Resp.ok () →
      (offboardRoute isDate fails now u id b db).2 = db) := by
  cases hmw : authorizeClientOrAccountant u true none (some id) db with
  | deny403 =>
    have hroute : offboardRoute isDate fails now u id b db = (Resp.err 403, db) := by
      unfold offboardRoute
      rw [hmw]
    constructor
    · intro hok
      rw [hroute] at hok
      exact absurd hok (by simp)
    · intro _
      rw [hroute]
  | proceed =>
    have hroute : offboardRoute isDate fails now u id b db =
        offboardEmployee isDate fails now id b db := by
      unfold offboardRoute
      rw [hmw]
    rw [hroute]
    constructor
    · intro hok
      have hpair2 : offboardEmployee isDate fails now id b db
          = (Resp.ok (), (offboardEmployee isDate fails now id b db).2) :=
        Prod.ext hok rfl
      obtain ⟨⟨e0, hfind⟩, hdb⟩ := offboardEmployee_ok isDate fails now id b db hpair2
      unfold Db.findEmployee at hfind
      have hmem0 := List.mem_of_find?_eq_some hfind
      have hp0 := List.find?_some hfind
      have hid0 : e0.employee_id = id := beq_iff_eq.mp hp0
      rw [hdb]
      refine ⟨?_, ?_, ?_⟩
      · refine ⟨{ e0 with is_active := false, updated_at := now }, ?_, hid0⟩
        have hmm := List.mem_map_of_mem
          (fun e => if e.employee_id == id then
            { e with is_active := false, updated_at := now } else e) hmem0
        simp only [hp0, if_true] at hmm
        exact hmm
      · intro e2 hmem2 hid2
        obtain ⟨e, hmem, hfe⟩ := List.mem_map.mp hmem2
        by_cases hcase : (e.employee_id == id) = true
        · simp only [hcase, if_true] at hfe
          rw [← hfe]
        · simp only [hcase, if_false] at hfe
          rw [← hfe] at hid2
          exact absurd (beq_iff_eq.mpr hid2) hcase
      · exact ⟨_, List.mem_append_right _ (List.mem_singleton_self _), rfl⟩
    · intro hne
      exact offboardEmployee_fail isDate fails now id b db rfl hne

/-- Witness for atomicity: the client of company 1 offboards employee 3 and
an offboarding row appears; the same call with the out-of-enum reason
RESIGNED leaves the store untouched. -/
theorem offboard_atomicity_witness :
    (∃ rec ∈ (offboardRoute acceptAll noFailure 500 clientOfCompany1 3
        offboardGoodBody dbPayroll).2.offboarding, rec.employee_id = 3) ∧
    (offboardRoute acceptAll noFailure 500 clientOfCompany1 3
        offboardBadBody dbPayroll).2 = dbPayroll :=
  ⟨((offboard_atomicity acceptAll noFailure 500 clientOfCompany1 3
      offboardGoodBody dbPayroll).1 (by decide)).2.2,
   (offboard_atomicity acceptAll noFailure 500 clientOfCompany1 3
      offboardBadBody dbPayroll).2 (by decide)⟩

/-- Claim C4: offboarding a nonexistent employee id gives 404 for every
principal — the policy middleware deliberately lets the request through
instead of answering 403 — and nothing is written to any table. -/
theorem offboard_nonexistent_gets_404 (isDate : String → Bool)
    (fails : Nat → Bool) (now : Int) (u : Principal) (id : Nat)
    (b : OffboardBody) (db : Db)
    (habs : ∀ e ∈ db.employees, e.employee_id ≠ id)
    (hv : offboardBodyValid isDate b = true)
    (hf : ∀ n, fails n = false) :
    authorizeClientOrAccountant u true none (some id) db = MwDecision.proceed ∧
    offboardRoute isDate fails now u id b db = (Resp.err 404, db) := by
  have hfind : db.findEmployee id = none := by
    unfold Db.findEmployee
    apply List.find?_eq_none.mpr
    intro e he
    simp [habs e he]
  have hmw : authorizeClientOrAccountant u true none (some id) db
      = MwDecision.proceed := by
    obtain ⟨uid, urole, uacc, ucomp⟩ := u
    cases urole with
    | accountant => rfl
    | client =>
      unfold authorizeClientOrAccountant
      dsimp only
      rw [hfind]
      simp
  refine ⟨hmw, ?_⟩
  unfold offboardRoute
  rw [hmw]
  dsimp only
  unfold offboardEmployee
  rw [if_neg (by simp [hv]), hf 0, hfind]
  simp

/-- Witness for the nonexistent-employee rule: id 99999 is absent from the
store, the policy step proceeds, and the route answers 404 writing
nothing. -/
theorem offboard_nonexistent_gets_404_witness :
    authorizeClientOrAccountant clientOfCompany1 true none (some 99999) dbPayroll
      = MwDecision.proceed ∧
    offboardRoute acceptAll noFailure 500 clientOfCompany1 99999
      offboardGoodBody dbPayroll = (Resp.err 404, dbPayroll) :=
  offboard_nonexistent_gets_404 acceptAll noFailure 500 clientOfCompany1 99999
    offboardGoodBody dbPayroll (by decide) (by decide) (fun _ => rfl)

/-- Claim C10: a successful offboard changes only `is_active` and
`updated_at` of the target employees row, leaves every other employee field
and every other row intact, appends exactly one offboarding row carrying
the given body values (callback date NULL when absent), and touches no
other table. -/
theorem offboard_success_frame (isDate : String → Bool) (fails : Nat → Bool)
    (now : Int) (u : Principal) (id : Nat) (b : OffboardBody) (db : Db)
    (hok : (offboardRoute isDate fails now u id b db).1 = Resp.ok ()) :
    (offboardRoute isDate fails now u id b db).2.companies = db.companies ∧
    (offboardRoute isDate fails now u id b db).2.payroll_entries
      = db.payroll_entries ∧
    (offboardRoute isDate fails now u id b db).2.offboarding
      = db.offboarding ++
        [{ employee_id := id, reason_for_leaving := b.reason_for_leaving,
           last_day_worked := b.last_day_worked,
           payout_accrued_vacation := b.payout_accrued_vacation,
           callback_date := jsOrNull b.callback_date }] ∧
    (∀ e ∈ db.employees, e.employee_id ≠ id →
       e ∈ (offboardRoute isDate fails now u id b db).2.employees) ∧
    (∀ e ∈ db.employees, e.employee_id = id →
       ∃ e2 ∈ (offboardRoute isDate fails now u id b db).2.employees,
         e2.is_active = false ∧ e2.updated_at = now ∧
         e2.employee_id = e.employee_id ∧ e2.company_id = e.company_id ∧
         e2.first_name = e.first_name ∧ e2.last_name = e.last_name ∧
         e2.date_of_birth = e.date_of_birth ∧
         e2.full_address = e.full_address ∧ e2.email = e.email ∧
         e2.phone_number = e.phone_number ∧ e2.sin = e.sin ∧
         e2.start_date = e.start_date ∧ e2.position = e.position ∧
         e2.pay_type = e.pay_type ∧ e2.pay_rate = e.pay_rate ∧
         e2.pay_schedule = e.pay_schedule ∧
         e2.institution_number = e.institution_number ∧
         e2.transit_number = e.transit_number ∧
         e2.account_number = e.account_number ∧
         e2.consent_electronic_documents = e.consent_electronic_documents) := by
  cases hmw : authorizeClientOrAccountant u true none (some id) db with
  | deny403 =>
    exfalso
    have hroute : offboardRoute isDate fails now u id b db = (Resp.err 403, db) := by
      unfold offboardRoute
      rw [hmw]
    rw [hroute] at hok
    exact absurd hok (by simp)
  | proceed =>
    have hroute : offboardRoute isDate fails now u id b db =
        offboardEmployee isDate fails now id b db := by
      unfold offboardRoute
      rw [hmw]
    rw [hroute] at hok ⊢
    have hpair2 : offboardEmployee isDate fails now id b db
        = (Resp.ok (), (offboardEmployee isDate fails now id b db).2) :=
      Prod.ext hok rfl
    obtain ⟨⟨e0, hfind⟩, hdb⟩ := offboardEmployee_ok isDate fails now id b db hpair2
    rw [hdb]
    refine ⟨rfl, rfl, rfl, ?_, ?_⟩
    · intro e hmem hne
      have hmm := List.mem_map_of_mem
        (fun e => if e.employee_id == id then
          { e with is_active := false, updated_at := now } else e) hmem
      simp only [show (e.employee_id == id) = false by simp [hne], if_false] at hmm
      exact hmm
    · intro e hmem hide
      have hmm := List.mem_map_of_mem
        (fun e => if e.employee_id == id then
          { e with is_active := false, updated_at := now } else e) hmem
      simp only [beq_iff_eq.mpr hide, if_true] at hmm
      exact ⟨{ e with is_active := false, updated_at := now }, hmm,
        rfl, rfl, rfl, rfl, rfl, rfl, rfl, rfl, rfl, rfl, rfl, rfl, rfl,
        rfl, rfl, rfl, rfl, rfl, rfl, rfl⟩

/-- Witness for the offboarding frame condition at the concrete store: the
offboarding table gains exactly the QUIT row of employee 3 and the payroll
table is untouched. -/
theorem offboard_success_frame_witness :
    (offboardRoute acceptAll noFailure 600 clientOfCompany1 3
        offboardGoodBody dbPayroll).2.offboarding
      = dbPayroll.offboarding ++
        [{ employee_id := 3, reason_for_leaving := "QUIT",
           last_day_worked := "2024-02-29", payout_accrued_vacation := true,
           callback_date := none }] ∧
    (offboardRoute acceptAll noFailure 600 clientOfCompany1 3
        offboardGoodBody dbPayroll).2.payroll_entries
      = dbPayroll.payroll_entries :=
  ⟨(offboard_success_frame acceptAll noFailure 600 clientOfCompany1 3
      offboardGoodBody dbPayroll (by decide)).2.2.1,
   (offboard_success_frame acceptAll noFailure 600 clientOfCompany1 3
      offboardGoodBody dbPayroll (by decide)).2.1⟩

/-- Employees table produced by a validated employee update: the guarded
UPDATE applied pointwise. -/
theorem updateEmployee_employees_eq (validate : EmployeeUpdateBody → Bool)
    (now : Int) (u : Principal) (id : Nat) (b : EmployeeUpdateBody) (db : Db)
    (hv : validate b = true) :
    (updateEmployee validate now u id b db).2.employees =
      db.employees.map (fun e => if employeeUpdateWhere u id db e then
        applyEmployeeUpdate b now e else e) := by
  unfold updateEmployee
  rw [if_neg (by simp [hv])]
  dsimp only
  split <;> rfl

/-- Claim C7 (counterexample): the claim says Inactive is terminal and
reachable only through Offboard; evaluating PUT /employees/:id with body
`is_active := true` on the inactive employee 1, issued by the owning
client, reactivates the row. -/
theorem inactive_employee_reactivated_by_update :
    inactiveEmployee.is_active = false ∧
    ∃ e ∈ (updateEmployee acceptAll 50 clientOfCompany5 1 reactivateBody
        dbInactive).2.employees, e.employee_id = 1 ∧ e.is_active = true := by
  constructor
  · rfl
  · decide

/-- Claim C7 (amended): the Offboard operation is not the only writer of
`is_active` and Inactive is not terminal: the generic employee update
accepts an `is_active` body field and sets the matched owned employee to
exactly the supplied value, in either direction. -/
theorem update_sets_is_active_to_supplied_value
    (validate : EmployeeUpdateBody → Bool) (now : Int) (u : Principal)
    (id : Nat) (b : EmployeeUpdateBody) (db : Db) (v : Bool) (e : Employee)
    (hv : validate b = true) (hb : b.is_active = some v)
    (he : e ∈ db.employees) (hw : employeeUpdateWhere u id db e = true) :
    ∃ e2 ∈ (updateEmployee validate now u id b db).2.employees,
      e2.employee_id = e.employee_id ∧ e2.is_active = v := by
  rw [updateEmployee_employees_eq validate now u id b db hv]
  have hmm := List.mem_map_of_mem
    (fun e => if employeeUpdateWhere u id db e then
      applyEmployeeUpdate b now e else e) he
  simp only [hw, if_true] at hmm
  refine ⟨applyEmployeeUpdate b now e, hmm, rfl, ?_⟩
  unfold applyEmployeeUpdate
  dsimp only
  rw [hb]
  rfl

/-- Witness for the amended C7 statement: the owning client sends
`is_active := true` for the inactive employee 1 and the resulting table
holds employee 1 active again. -/
theorem update_sets_is_active_to_supplied_value_witness :
    ∃ e2 ∈ (updateEmployee acceptAll 60 clientOfCompany5 1 reactivateBody
        dbInactive).2.employees,
      e2.employee_id = inactiveEmployee.employee_id ∧ e2.is_active = true :=
  update_sets_is_active_to_supplied_value acceptAll 60 clientOfCompany5 1
    reactivateBody dbInactive true inactiveEmployee rfl rfl (by decide)
    (by decide)

/-- Every company row after a company update descends from a row of the old
table with the same key and the same accountant association. -/
theorem updateCompany_row_provenance (validate : CompanyUpdateBody → Bool)
    (now : Int) (u : Principal) (id : Nat) (b : CompanyUpdateBody) (db : Db) :
    ∀ c2 ∈ (updateCompany validate now u id b db).2.companies,
      ∃ c0 ∈ db.companies,
        c2.company_id = c0.company_id ∧ c2.accountant_id = c0.accountant_id := by
  intro c2 hc2
  unfold updateCompany at hc2
  split at hc2
  · exact ⟨c2, hc2, rfl, rfl⟩
  · split at hc2
    · exact ⟨c2, hc2, rfl, rfl⟩
    · dsimp only at hc2
      split at hc2 <;>
      · obtain ⟨c0, h0, hg⟩ := List.mem_map.mp hc2
        by_cases hcw : companyUpdateWhere u id c0 = true
        · simp only [hcw, if_true] at hg
          exact ⟨c0, h0, by rw [← hg]; rfl, by rw [← hg]; rfl⟩
        · simp only [hcw, if_false] at hg
          exact ⟨c0, h0, by rw [← hg]; rfl, by rw [← hg]; rfl⟩

/-- Company deletion only removes rows; every surviving row is a row of the
old table. -/
theorem deleteCompany_row_provenance (u : Principal) (id : Nat) (db : Db) :
    ∀ c2 ∈ (deleteCompany u id db).2.companies, c2 ∈ db.companies := by
  intro c2 hc2
  unfold deleteCompany at hc2
  split at hc2
  · exact hc2
  · dsimp only at hc2
    split at hc2 <;> exact List.mem_of_mem_filter hc2

/-- Company creation only appends a row carrying the fresh key. -/
theorem createCompany_row_provenance (validate : CompanyCreateBody → Bool)
    (newId : Nat) (now : Int) (u : Principal) (b : CompanyCreateBody) (db : Db) :
    ∀ c2 ∈ (createCompany validate newId now u b db).2.companies,
      c2 ∈ db.companies ∨ c2.company_id = newId := by
  intro c2 hc2
  unfold createCompany at hc2
  split at hc2
  · exact Or.inl hc2
  · split at hc2
    · exact Or.inl hc2
    · dsimp only at hc2
      rcases List.mem_append.mp hc2 with hin | hnew
      · exact Or.inl hin
      · rw [List.mem_singleton.mp hnew]
        exact Or.inr rfl

/-- Companies table produced by the associate operation once the accountant
guard passed: the guarded UPDATE applied pointwise. -/
theorem associateCompany_companies_eq (u : Principal) (k : Nat) (db : Db)
    (hmw : authorizeAccountant u = MwDecision.proceed) :
    (associateCompany u k db).2.companies =
      db.companies.map (fun c => if c.company_id == k && c.accountant_id == none
        then { c with accountant_id := u.accountantId } else c) := by
  unfold associateCompany
  rw [hmw]
  dsimp only
  split <;> rfl

/-- Claim C8: accountant association is one-way.  The associate operation
succeeds only on a company whose `accountant_id` is NULL and then sets it
to the caller; it answers 404 when the company is absent or already
associated, leaving the store unchanged; and no operation of the embedded
system — associate, company update, company delete, company create,
employee create, employee update, offboard, payroll update — ever moves an
already-set `accountant_id` to NULL or to a different accountant. -/
theorem company_association_one_way
    (u u2 : Principal) (a k newId id2 id3 id4 id5 id6 : Nat) (now : Int)
    (cb : CompanyCreateBody) (ub : CompanyUpdateBody) (eb : EmployeeCreateBody)
    (eub : EmployeeUpdateBody) (ob : OffboardBody) (pb : PayrollUpdateBody)
    (vc : CompanyCreateBody → Bool) (vu : CompanyUpdateBody → Bool)
    (ve : EmployeeCreateBody → Bool) (veu : EmployeeUpdateBody → Bool)
    (isDate : String → Bool) (fails : Nat → Bool)
    (vp : PayrollUpdateBody → Bool) (db : Db)
    (hrole : u.role = Role.accountant) (ha : u.accountantId = some a)
    (ha0 : a ≠ 0) (hkeys : companiesKeyUnique db) :
    ((∀ c ∈ db.companies, c.company_id = k → c.accountant_id ≠ none) →
      associateCompany u k db = (Resp.err 404, db)) ∧
    (∀ c2 db2, associateCompany u k db = (Resp.ok c2, db2) →
      ∃ c0 ∈ db.companies, c0.company_id = k ∧ c0.accountant_id = none ∧
        c2 = { c0 with accountant_id := some a }) ∧
    preservesAssoc db (associateCompany u k db).2 ∧
    preservesAssoc db (updateCompany vu now u2 id2 ub db).2 ∧
    preservesAssoc db (deleteCompany u2 id3 db).2 ∧
    ((∀ c ∈ db.companies, c.company_id ≠ newId) →
      preservesAssoc db (createCompany vc newId now u2 cb db).2) ∧
    preservesAssoc db (createEmployee ve newId now u2 eb db).2 ∧
    preservesAssoc db (updateEmployee veu now u2 id4 eub db).2 ∧
    preservesAssoc db (offboardRoute isDate fails now u2 id5 ob db).2 ∧
    preservesAssoc db (updatePayrollEntry vp now u2 id6 pb db).2 := by
  have hmwA : authorizeAccountant u = MwDecision.proceed := by
    unfold authorizeAccountant
    rw [if_pos]
    exact ⟨hrole, by rw [ha]; simp [jsTruthy, ha0]⟩
  refine ⟨?_, ?_, ?_, ?_, ?_, ?_, ?_, ?_, ?_, ?_⟩
  · intro hall
    unfold associateCompany
    rw [hmwA]
    dsimp only
    have hfil : db.companies.filter
        (fun c => c.company_id == k && c.accountant_id == none) = [] := by
      apply List.filter_eq_nil_iff.mpr
      intro c hc hand
      rw [Bool.and_eq_true] at hand
      exact hall c hc (beq_iff_eq.mp hand.1) (beq_iff_eq.mp hand.2)
    rw [hfil]
    dsimp only [List.map_nil]
    have hkeep := map_guarded_id
      (fun c => c.company_id == k && c.accountant_id == none)
      (fun c => { c with accountant_id := u.accountantId }) db.companies
      (by
        intro c hc
        have := List.filter_eq_nil_iff.mp hfil c hc
        exact Bool.eq_false_iff.mpr this)
    rw [hkeep]
  · intro c2 db2 heq
    unfold associateCompany at heq
    rw [hmwA] at heq
    dsimp only at heq
    split at heq
    · exact absurd (congrArg Prod.fst heq) (by simp)
    · next c0h rest hret =>
      injection heq with h1 h2
      injection h1 with h1
      have hhead : c0h ∈ (db.companies.filter
          (fun c => c.company_id == k && c.accountant_id == none)).map
          (fun c => { c with accountant_id := u.accountantId }) := by
        rw [hret]
        exact List.mem_cons_self _ _
      obtain ⟨c0, h0f, hg⟩ := List.mem_map.mp hhead
      have h0mem := List.mem_of_mem_filter h0f
      have h0pred := List.of_mem_filter h0f
      rw [Bool.and_eq_true] at h0pred
      refine ⟨c0, h0mem, beq_iff_eq.mp h0pred.1, beq_iff_eq.mp h0pred.2, ?_⟩
      rw [← h1, ← hg, ha]
  · intro c hc c2 hc2 hk hne
    rw [associateCompany_companies_eq u k db hmwA] at hc2
    obtain ⟨c0, h0, hg⟩ := List.mem_map.mp hc2
    by_cases hpred : (c0.company_id == k && c0.accountant_id == none) = true
    · simp only [hpred, if_true] at hg
      have hkey : c0.company_id = c.company_id := by
        rw [← hk, ← hg]
      have hcc : c0 = c := company_eq_of_key_eq hkeys c0 h0 c hc hkey
      rw [Bool.and_eq_true] at hpred
      rw [hcc] at hpred
      exact absurd (beq_iff_eq.mp hpred.2) hne
    · simp only [hpred, if_false] at hg
      have hg2 : c0 = c2 := by
        rw [← hg]
        rfl
      have hcc : c0 = c :=
        company_eq_of_key_eq hkeys c0 h0 c hc (by rw [hg2]; exact hk)
      rw [← hg2, hcc]
  · intro c hc c2 hc2 hk hne
    obtain ⟨c0, h0, hid, hacc⟩ :=
      updateCompany_row_provenance vu now u2 id2 ub db c2 hc2
    have hcc : c0 = c :=
      company_eq_of_key_eq hkeys c0 h0 c hc (hid.symm.trans hk)
    rw [hacc, hcc]
  · intro c hc c2 hc2 hk hne
    have hin := deleteCompany_row_provenance u2 id3 db c2 hc2
    rw [company_eq_of_key_eq hkeys c2 hin c hc hk]
  · intro hfresh c hc c2 hc2 hk hne
    rcases createCompany_row_provenance vc newId now u2 cb db c2 hc2 with hin | hnew
    · rw [company_eq_of_key_eq hkeys c2 hin c hc hk]
    · exact absurd (hnew ▸ hk.symm : c.company_id = newId) (hfresh c hc)
  · exact preservesAssoc_of_companies_eq hkeys
      (createEmployee_keeps_companies ve newId now u2 eb db)
  · exact preservesAssoc_of_companies_eq hkeys
      (updateEmployee_keeps_companies veu now u2 id4 eub db)
  · exact preservesAssoc_of_companies_eq hkeys
      (offboardRoute_keeps_companies isDate fails now u2 id5 ob db)
  · exact preservesAssoc_of_companies_eq hkeys
      (updatePayrollEntry_keeps_companies vp now u2 id6 pb db)

/-- Witness for the one-way association: company 1 of the concrete store is
already held by accountant 2, so a second association answers 404 and the
store is unchanged. -/
theorem company_association_one_way_witness :
    associateCompany accountantTwo 1 dbAssoc = (Resp.err 404, dbAssoc) :=
  (company_association_one_way accountantTwo accountantTwo 2 1 100 1 1 1 1 1 0
    { company_name := "N", contact_person := "P", email := "e", phone := "p",
      address := "ad" }
    { company_name := none, contact_person := none, email := none,
      phone := none, address := none }
    createBodySmuggled reactivateBody offboardGoodBody emptyPayrollBody
    acceptAll acceptAll acceptAll acceptAll acceptAll noFailure acceptAll
    dbAssoc rfl rfl (by decide) (by decide)).1 (by decide)

end Payroll
